import Mathlib

/-!
# Verification of the `notebooks` logging façade

Shallow embedding of `src/notebooks/logging_utils.py` (plus the helpers it
uses from `path_utils.py` and `os_utils.py`) and proofs of the frozen claims
about it.

Modelling conventions:

* Python's process-wide mutable state (the root logger's handler list and
  level, the module-level `_indent_filter`, `_use_emme` flag and handler
  id supply) is collected in a `World` record that every operation threads
  explicitly.
* Python exceptions are modelled by the `Outcome` type: a block of code is a
  function `World → World × Outcome α`; `.exn` outcomes propagate.
* Handler objects have identity in Python (`logger.addHandler` /
  `logger.removeHandler` compare by object identity, and the handler list
  never holds the same object twice because `addHandler` guards on
  membership).  We model identity with an `id : Nat` field drawn from a
  fresh-id counter, and model the source's remove-loops (which remove each
  member of a previously computed sublist) as list `filter`s.
* `datetime.datetime.now()` is modelled by a `now` field of the `World`,
  fixed for the run.
* Calls into the external modelling host (`_m.logbook_write`,
  `_m.logbook_trace`) are opaque external effects: they touch none of the
  state modelled here, so they do not appear in the state transformers.
-/

/-- A Python exception, as far as this development needs to distinguish them. -/
inductive Exn where
  | keyError
  | typeError
  | userError
  deriving DecidableEq, Repr

/-- Result of running a block of Python code: a normal value or a raised
exception that propagates. -/
inductive Outcome (α : Type) where
  | ok (v : α)
  | exn (e : Exn)
  deriving DecidableEq, Repr

/-- A Python value, restricted to what the logging façade interpolates into
message templates. -/
inductive PyVal where
  | vInt (n : Int)
  | vStr (s : String)
  deriving DecidableEq, Repr

/-- `format(value)` as used by `str.format` for the two value kinds above. -/
def pyFormat : PyVal → String
  | .vInt n => toString n
  | .vStr s => s

/-- A Python dict keyed by strings, as an association list (first binding
wins, as dict keys are unique). -/
abbrev Ctx : Type := List (String × PyVal)

/-- Dict lookup. -/
def lookupStr (ctx : Ctx) (k : String) : Option PyVal :=
  match ctx with
  | [] => none
  | (k', v) :: rest => if k' = k then some v else lookupStr rest k

/-- One piece of a `str.format` template: literal text or a `¦name¦`-style
placeholder (braces in the Python source). -/
inductive TmplPart where
  | lit (s : String)
  | ph (key : String)
  deriving DecidableEq, Repr

/-- A parsed `str.format` template. -/
abbrev Template : Type := List TmplPart

/-- The placeholder keys a template mentions. -/
def placeholders (t : Template) : List String :=
  t.filterMap fun p => match p with | .lit _ => none | .ph k => some k

/-- `msg.format(**ctx)`: substitute every placeholder by name; `none` models
the `KeyError` Python raises when a placeholder has no matching key. -/
def fmtTemplate (t : Template) (ctx : Ctx) : Option String :=
  match t with
  | [] => some ""
  | .lit s :: rest => (fmtTemplate rest ctx).map (fun r => s ++ r)
  | .ph k :: rest =>
    match lookupStr ctx k, fmtTemplate rest ctx with
    | some v, some r => some (pyFormat v ++ r)
    | _, _ => none

/-- The concrete Python classes a handler can belong to.  In the `logging`
library `FileHandler` is a subclass of `StreamHandler`; the module's
`EmmeHandler` subclasses `logging.Handler` directly. -/
inductive HKind where
  | stdout
  | file
  | emme
  deriving DecidableEq, Repr

/-- `isinstance(h, logging.StreamHandler)`. -/
def isStreamInstance : HKind → Bool
  | .stdout => true
  | .file => true
  | .emme => false

/-- `isinstance(h, logging.FileHandler)`. -/
def isFileInstance : HKind → Bool
  | .file => true
  | _ => false

/-- A logging handler object.  `id` models Python object identity;
`name` is the handler's `.name` attribute (`None` unless set);
`filename` is meaningful for file handlers only. -/
structure Handler where
  id : Nat
  kind : HKind
  name : Option String
  level : Nat
  filename : Option String
  deriving DecidableEq, Repr

/-- `logging.INFO`. -/
def INFO : Nat := 20

/-- A `datetime.datetime` value, to second precision. -/
structure PyDateTime where
  year : Nat
  month : Nat
  day : Nat
  hour : Nat
  minute : Nat
  second : Nat
  deriving DecidableEq, Repr

/-- The process-wide mutable state of the module: the root logger
(handler list, level, whether the indent filter is attached), the module
singletons (`_indent_filter._indent`, `_use_emme`), a fresh-id supply for
newly constructed handler objects, and observation logs for the external
effects (records accepted by the root logger, directories created,
files passed to `startfile`, handler ids that were `close()`d). -/
structure World where
  handlers : List Handler
  level : Nat
  hasIndentFilter : Bool
  indentDepth : Int
  useEmme : Bool
  nextId : Nat
  log : List String
  fs : List String
  opened : List String
  closedIds : List Nat
  now : PyDateTime
  deriving DecidableEq, Repr

/-- `logger.addHandler(h)`: appends unless the object is already attached. -/
def addHandler (h : Handler) (w : World) : World :=
  if h ∈ w.handlers then w else { w with handlers := w.handlers ++ [h] }

/-- `logger.removeHandler(h)`: removes the (unique) occurrence of `h`. -/
def removeHandler (h : Handler) (w : World) : World :=
  { w with handlers := w.handlers.erase h }

/-- `logger.setLevel(l)`. -/
def setLevel (l : Nat) (w : World) : World := { w with level := l }

/-- `_ensure_indenting(logger)`: attach the module's indent filter if it is
not already in the logger's filter chain. -/
def ensureIndenting (w : World) : World :=
  if w.hasIndentFilter then w else { w with hasIndentFilter := true }

/-- `logging.info(m)` / `root_logger.info(m)`: the record is handled iff
`INFO` is at least the logger's level; we record accepted messages. -/
def logInfo (m : String) (w : World) : World :=
  if w.level ≤ INFO then { w with log := w.log ++ [m] } else w

/-- `INDENT_STR` from the source. -/
def INDENT_STR : String := "  "

/-- Python string repetition `s * n` (empty for non-positive `n`). -/
def pyStrMul (s : String) (n : Int) : String :=
  String.join (List.replicate n.toNat s)

/-- A log record as far as the indenting filter is concerned. -/
structure LogRecord where
  msg : String
  indent_str : String
  deriving DecidableEq, Repr

/-- `IndentingFilter.filter(record)`: sets `record.indent_str` to
`INDENT_STR * self._indent` and returns `True`. -/
def IndentingFilter.filter (depth : Int) (r : LogRecord) : LogRecord × Bool :=
  ({ r with indent_str := pyStrMul INDENT_STR depth }, true)

/-- `IndentingFilter.increase_indent`. -/
def increaseIndent (w : World) : World :=
  { w with indentDepth := w.indentDepth + 1 }

/-- `IndentingFilter.decrease_indent`. -/
def decreaseIndent (w : World) : World :=
  { w with indentDepth := w.indentDepth - 1 }

/-- The body of the `indent` context manager around a wrapped block
`body`: format the message (a missing key raises `KeyError` before
anything else happens), log it, increase the indent, run the block —
inside `_m.logbook_trace` when `_use_emme` is set, an external call that
touches no modelled state — and decrease the indent in a `finally`,
so the decrement happens whether the block returns or raises. -/
def indentRun {α : Type} (msg : Template) (ctx : Ctx)
    (body : World → World × Outcome α) (w : World) : World × Outcome α :=
  match fmtTemplate msg ctx with
  | none => (w, .exn .keyError)
  | some m =>
    let w1 := logInfo m w
    let w2 := increaseIndent w1
    let res := body w2
    (decreaseIndent res.1, res.2)

/-- Client code running under the façade, with forced-failure injection:
`raiseExn` models an exception raised at an arbitrary statement position. -/
inductive Prog where
  | skip
  | raiseExn
  | info (m : String)
  | seq (p q : Prog)
  | indentScope (msg : Template) (ctx : Ctx) (p : Prog)

/-- Execution of client code.  `indentScope` is the `with indent(msg, ctx):`
statement; an exception anywhere propagates outward, skipping the rest of a
`seq`. -/
def execProg : Prog → World → World × Outcome Unit
  | .skip, w => (w, .ok ())
  | .raiseExn, w => (w, .exn .userError)
  | .info m, w => (logInfo m w, .ok ())
  | .seq p q, w =>
    match execProg p w with
    | (w1, .ok _) => execProg q w1
    | (w1, .exn e) => (w1, .exn e)
  | .indentScope msg ctx p, w => indentRun msg ctx (execProg p) w

/-- The `.name` of the module's stdout handler singleton. -/
def stdoutName : String := "StdOutHandler"

/-- The id this development reserves for the module-level
`_stream_handler = logging.StreamHandler(sys.stdout)` singleton. -/
def stdoutId : Nat := 0

/-- The `_stream_handler` singleton with its level set to `lvl`. -/
def streamHandlerAt (lvl : Nat) : Handler :=
  { id := stdoutId, kind := .stdout, name := some stdoutName,
    level := lvl, filename := none }

/-- `_ensure_stdout(logger, level)`:
`_stream_handler.setLevel(level)` mutates the singleton object, visible
through the handler list if it is attached; the handler is appended when no
attached handler is named `"StdOutHandler"`; finally every *other* attached
`StreamHandler` instance (by name) is removed.  The remove-loop removes each
member of a precomputed sublist by object identity from a duplicate-free
list, which is a `filter`. -/
def ensureStdout (lvl : Nat) (w : World) : World :=
  let hs1 := w.handlers.map fun h =>
    if h.id = stdoutId then { h with level := lvl } else h
  let hs2 := if hs1.any (fun h => h.name = some stdoutName) then hs1
             else hs1 ++ [streamHandlerAt lvl]
  let hs3 := hs2.filter fun h =>
    ¬(isStreamInstance h.kind = true ∧ h.name ≠ some stdoutName)
  { w with handlers := hs3 }

/-- `basic_logging(level)`. -/
def basicLogging (lvl : Nat) (w : World) : World :=
  ensureIndenting (ensureStdout lvl (setLevel lvl w))

/-- `add_emme_logging_handler(level)`: constructs a fresh `EmmeHandler`
(no name is ever assigned to it), attaches it, and sets `_use_emme`. -/
def addEmmeLoggingHandler (lvl : Nat) (w : World) : World :=
  let eh : Handler :=
    { id := w.nextId, kind := .emme, name := none, level := lvl, filename := none }
  let w1 := addHandler eh { w with nextId := w.nextId + 1 }
  { w1 with useEmme := true }

/-- Zero-pad to two digits, as `strftime` does for `%m %d %H %M %S`. -/
def pad2 (n : Nat) : String :=
  if n < 10 then "0" ++ toString n else toString n

/-- Zero-pad to four digits, as `strftime` does for `%Y`. -/
def pad4 (n : Nat) : String :=
  if n < 10 then "000" ++ toString n
  else if n < 100 then "00" ++ toString n
  else if n < 1000 then "0" ++ toString n
  else toString n

/-- `now.strftime("%Y-%m-%d_%H%M%S")`. -/
def strftimeStamp (t : PyDateTime) : String :=
  pad4 t.year ++ "-" ++ pad2 t.month ++ "-" ++ pad2 t.day ++ "_" ++
    pad2 t.hour ++ pad2 t.minute ++ pad2 t.second

/-- `s.startswith(pre)` on Python strings, computed on the character
lists (kernel-reducible, unlike `String.startsWith`). -/
def strStartsWith (s pre : String) : Bool :=
  pre.data.isPrefixOf s.data

/-- `s.endswith(suffix)` on Python strings, computed on the character
lists. -/
def strEndsWith (s suffix : String) : Bool :=
  suffix.data.isSuffixOf s.data

/-- Posix `os.path.join(a, b)` for two components: an absolute `b` wins;
otherwise a separator is inserted unless `a` is empty or already ends in
one. -/
def osPathJoin (a b : String) : String :=
  if strStartsWith b "/" then b
  else if a = "" ∨ strEndsWith a "/" then a ++ b
  else a ++ "/" ++ b

/-- The component-wise prefixes of a path, longest last: the directories
`Path(d).mkdir(parents=True)` brings into existence. -/
def pathStages (d : String) : List String :=
  let parts := d.data.splitOn '/'
  (List.range parts.length).map fun i =>
    String.mk (List.intercalate ['/'] (parts.take (i + 1)))

/-- `mkdir_p(dir)` = `Path(dir).mkdir(parents=True, exist_ok=True)`: the
directory and all its missing parents come into existence; nothing is
removed and existing directories are untouched. -/
def mkdirP (d : String) (fs : List String) : List String :=
  pathStages d ++ fs

/-- `get_output_filename(output_folder, task)`: makes the folder, then joins
it with `"¦date¦_¦task¦.log"` where the date is `now` formatted as
`%Y-%m-%d_%H%M%S`. -/
def getOutputFilename (outputFolder task : String) (w : World) : World × String :=
  ({ w with fs := mkdirP outputFolder w.fs },
   osPathJoin outputFolder (strftimeStamp w.now ++ "_" ++ task ++ ".log"))

/-- The body of the `logging_for_task` context manager around a wrapped
block `body`, following the source line by line:

1. `get_output_filename` (makes the folder, derives the dated name);
2. `_ensure_indenting`; `root_logger.setLevel(level)`;
3. two `root_logger.info` lines announcing the redirection;
4. `previous_level = root_logger.level` — read *after* step 2's `setLevel`;
5. detach every attached `FileHandler` (remembering them in order);
6. construct and attach a fresh `FileHandler` for the dated name;
7. run the block, inside `with indent(message):` when a message was given;
8. the statements after the `yield` — detach the session handler, restore
   `previous_level`, close the handler, reattach the remembered file
   handlers, `startfile` the log file — run only on a normal return:
   the generator has no `try/finally`, so a propagating exception thrown
   into the `yield` skips them all. -/
def loggingForTask (outputFolder taskName : String) (message : Option Template)
    (level : Nat) (body : Prog) (w : World) : World × Outcome Unit :=
  let p1 := getOutputFilename outputFolder taskName w
  let outputFilename := p1.2
  let w1 := setLevel level (ensureIndenting p1.1)
  let w2 := logInfo ("Redirecting file based logging:") w1
  let w3 := logInfo (" -> " ++ outputFilename) w2
  let previousLevel := w3.level
  let existingFh := w3.handlers.filter fun h => isFileInstance h.kind
  let w4 := { w3 with handlers := w3.handlers.filter fun h => ¬isFileInstance h.kind = true }
  let fh : Handler :=
    { id := w4.nextId, kind := .file, name := none, level := level,
      filename := some outputFilename }
  let w5 := addHandler fh { w4 with nextId := w4.nextId + 1 }
  let run :=
    match message with
    | some msgT => indentRun msgT [] (execProg body) w5
    | none => execProg body w5
  match run with
  | (w6, .exn e) => (w6, .exn e)
  | (w6, .ok _) =>
    let w7 := setLevel previousLevel (removeHandler fh w6)
    let w8 := { w7 with closedIds := w7.closedIds ++ [fh.id] }
    let w9 := existingFh.foldl (fun acc h => addHandler h acc) w8
    ({ w9 with opened := w9.opened ++ [outputFilename] }, .ok ())

/-- A Python function as `function_logging` sees it: declared parameter
names in order, declared defaults by name, and a body.  Python rebinds
`*args, **kwargs` to the same name/value mapping when the wrapper calls
`function(*args, **kwargs)`, so the body is modelled as consuming the bound
mapping directly. -/
structure PyFun where
  params : List String
  defaults : Ctx
  body : Ctx → World → World × Outcome PyVal

/-- `inspect.getcallargs(function, *args, **kwargs)`: bind positionals in
declaration order, every keyword must name a parameter not already bound
positionally, and each remaining parameter takes its keyword value or its
declared default; anything else is a `TypeError` (modelled as `none`). -/
def getcallargs (params : List String) (defaults : Ctx)
    (args : List PyVal) (kwargs : Ctx) : Option Ctx :=
  if params.length < args.length then none
  else
    let posBound : Ctx := params.zip args
    let rest := params.drop args.length
    if kwargs.all (fun kv => rest.contains kv.1) then
      match rest.mapM (fun p =>
          (match lookupStr kwargs p with
           | some v => some v
           | none => lookupStr defaults p).map fun v => (p, v)) with
      | some restBound => some (posBound ++ restBound)
      | none => none
    else none

/-- A call of the function produced by `function_logging(msg)` applied to
`f`: resolve the call arguments by name with `inspect.getcallargs`
(failures there are the `TypeError`s Python raises at call time), then run
`f`'s body inside `with indent(msg, args_dict):`, returning the body's
result or propagating its exception. -/
def functionLoggingCall (msg : Template) (f : PyFun)
    (args : List PyVal) (kwargs : Ctx) (w : World) : World × Outcome PyVal :=
  match getcallargs f.params f.defaults args kwargs with
  | none => (w, .exn .typeError)
  | some argsDict => indentRun msg argsDict (f.body argsDict) w

/-! ## Helper lemmas -/

theorem indentDepth_logInfo (m : String) (w : World) :
    (logInfo m w).indentDepth = w.indentDepth := by
  unfold logInfo; split <;> rfl

theorem handlers_logInfo (m : String) (w : World) :
    (logInfo m w).handlers = w.handlers := by
  unfold logInfo; split <;> rfl

theorem handlers_ensureIndenting (w : World) :
    (ensureIndenting w).handlers = w.handlers := by
  unfold ensureIndenting; split <;> rfl

theorem level_ensureIndenting (w : World) :
    (ensureIndenting w).level = w.level := by
  unfold ensureIndenting; split <;> rfl

/-- A `KeyError` happens whenever some placeholder has no binding, whatever
the rest of the template holds. -/
theorem fmtTemplate_eq_none_of_missing (t : Template) (ctx : Ctx) (k : String)
    (hk : k ∈ placeholders t) (hl : lookupStr ctx k = none) :
    fmtTemplate t ctx = none := by
  induction t with
  | nil => simp [placeholders] at hk
  | cons hd rest ih =>
    cases hd with
    | lit s =>
      have hk' : k ∈ placeholders rest := by
        simpa [placeholders] using hk
      simp [fmtTemplate, ih hk']
    | ph k' =>
      by_cases hkk : k' = k
      · subst hkk
        simp [fmtTemplate, hl]
      · have hk' : k ∈ placeholders rest := by
          rcases (by simpa [placeholders] using hk : k = k' ∨
              ∃ a ∈ rest, (match a with
                | TmplPart.lit _ => none
                | TmplPart.ph key => some key) = some k) with h | h
          · exact absurd h.symm hkk
          · simpa [placeholders, List.mem_filterMap] using h
        simp [fmtTemplate, ih hk']

/-! ## Claim C2 -/

/-- C2: for every sequence of nested `indent` (Indent Scope) entries,
whether each wrapped block completes normally or raises at any statement
position (`Prog.raiseExn` injects a failure anywhere), the Indent Tracker
depth after all scopes have exited equals the depth before the sequence
began — each scope's increment is matched by exactly one decrement on
exit. -/
theorem execProg_indentDepth_balanced (p : Prog) (w : World) :
    (execProg p w).1.indentDepth = w.indentDepth := by
  induction p generalizing w with
  | skip => rfl
  | raiseExn => rfl
  | info m => simpa [execProg] using indentDepth_logInfo m w
  | seq p q ihp ihq =>
    show (match execProg p w with
      | (w1, .ok _) => execProg q w1
      | (w1, .exn e) => (w1, .exn e)).1.indentDepth = w.indentDepth
    rcases hp : execProg p w with ⟨w1, r⟩
    have hw1 : w1.indentDepth = w.indentDepth := by
      have := ihp w; rw [hp] at this; exact this
    cases r with
    | ok v => simpa [ihq w1] using hw1
    | exn e => simpa using hw1
  | indentScope msg ctx p ih =>
    show (indentRun msg ctx (execProg p) w).1.indentDepth = w.indentDepth
    unfold indentRun
    rcases hf : fmtTemplate msg ctx with _ | m
    · rfl
    · simp only []
      rcases hr : execProg p (increaseIndent (logInfo m w)) with ⟨w1, r⟩
      have hw1 : w1.indentDepth = (increaseIndent (logInfo m w)).indentDepth := by
        have := ih (increaseIndent (logInfo m w)); rw [hr] at this; exact this
      simp [decreaseIndent, hr, hw1, increaseIndent, indentDepth_logInfo]

/-! ## Claim C9 -/

/-- C9: for every record formatted while the Indent Tracker depth equals a
non-negative `d` and any message content, the indent prefix the filter
attaches to the record is exactly `d` repetitions of the fixed indent unit
`INDENT_STR` (and the filter accepts the record). -/
theorem indentingFilter_prefix_repeats (d : Nat) (r : LogRecord) :
    (IndentingFilter.filter (d : Int) r).1.indent_str
        = String.join (List.replicate d INDENT_STR)
      ∧ (IndentingFilter.filter (d : Int) r).2 = true := by
  constructor
  · show pyStrMul INDENT_STR (d : Int) = String.join (List.replicate d INDENT_STR)
    unfold pyStrMul
    rw [Int.toNat_ofNat]
  · rfl

/-! ## Claim C8 -/

/-- `indent` raises `KeyError` before doing anything else whenever the
message template mentions a key the argument dict does not bind. -/
theorem indentRun_keyError {α : Type} (msg : Template) (k : String)
    (ctx : Ctx) (w : World) (body : World → World × Outcome α)
    (hk : k ∈ placeholders msg) (hl : lookupStr ctx k = none) :
    indentRun msg ctx body w = (w, .exn .keyError) := by
  unfold indentRun
  rw [fmtTemplate_eq_none_of_missing msg ctx k hk hl]

/-- C8: if the template passed to `indent` or to `function_logging` has a
placeholder with no matching key among the supplied format arguments, the
call fails at the point of formatting — at call time, before the message is
logged, before the depth changes and before the wrapped body runs — with a
key-resolution error that is not caught and propagates to the caller
(the state comes back unchanged together with the `KeyError`). -/
theorem template_missing_key_raises (msg : Template) (k : String)
    (hk : k ∈ placeholders msg) :
    (∀ (ctx : Ctx) (w : World) (body : World → World × Outcome Unit),
        lookupStr ctx k = none →
        indentRun msg ctx body w = (w, .exn .keyError))
    ∧ (∀ (f : PyFun) (args : List PyVal) (kwargs : Ctx) (argsDict : Ctx)
          (w : World),
        getcallargs f.params f.defaults args kwargs = some argsDict →
        lookupStr argsDict k = none →
        functionLoggingCall msg f args kwargs w = (w, .exn .keyError)) := by
  constructor
  · intro ctx w body hl
    exact indentRun_keyError msg k ctx w body hk hl
  · intro f args kwargs argsDict w hbind hl
    show (match getcallargs f.params f.defaults args kwargs with
      | none => (w, Outcome.exn Exn.typeError)
      | some argsDict => indentRun msg argsDict (f.body argsDict) w)
        = (w, .exn .keyError)
    rw [hbind]
    exact indentRun_keyError msg k argsDict w (f.body argsDict) hk hl

/-- Witness for C8: the template `"step \x7bn\x7d"` with an argument dict
binding only `m` raises `KeyError` from both facilities, leaving the state
unchanged. -/
theorem template_missing_key_raises_witness :
    (indentRun [TmplPart.lit "step ", TmplPart.ph "n"] [("m", PyVal.vInt 2)]
        (fun w => (w, Outcome.ok ()))
        { handlers := [], level := 20, hasIndentFilter := true,
          indentDepth := 0, useEmme := false, nextId := 1, log := [],
          fs := [], opened := [], closedIds := [],
          now := { year := 2024, month := 1, day := 2, hour := 3,
                   minute := 4, second := 5 } }
      = ({ handlers := [], level := 20, hasIndentFilter := true,
           indentDepth := 0, useEmme := false, nextId := 1, log := [],
           fs := [], opened := [], closedIds := [],
           now := { year := 2024, month := 1, day := 2, hour := 3,
                    minute := 4, second := 5 } }, .exn .keyError)) :=
  (template_missing_key_raises
      [TmplPart.lit "step ", TmplPart.ph "n"] "n" (by decide)).1
    [("m", PyVal.vInt 2)] _ _ (by decide)

/-! ## Counting sinks -/

/-- Number of attached handlers named `"StdOutHandler"` (console sinks). -/
def countStdout (hs : List Handler) : Nat :=
  hs.countP fun h => h.name = some stdoutName

/-- Number of attached `EmmeHandler`s (external logbook sinks). -/
def countEmme (hs : List Handler) : Nat :=
  hs.countP fun h => h.kind = HKind.emme

theorem countStdout_map_level (lvl : Nat) (hs : List Handler) :
    countStdout (hs.map fun h =>
        if h.id = stdoutId then { h with level := lvl } else h)
      = countStdout hs := by
  unfold countStdout
  rw [List.countP_map]
  apply List.countP_congr
  intro h _
  by_cases hid : h.id = stdoutId <;> simp [Function.comp, hid]

theorem countStdout_filter_keep (hs : List Handler) :
    countStdout (hs.filter fun h =>
        ¬(isStreamInstance h.kind = true ∧ h.name ≠ some stdoutName))
      = countStdout hs := by
  unfold countStdout
  rw [List.countP_filter]
  apply List.countP_congr
  intro h _
  by_cases hn : h.name = some stdoutName <;> simp [hn]

/-- Effect of `_ensure_stdout` on the number of console sinks: one appears
when none was attached; an existing one is left alone. -/
theorem countStdout_ensureStdout (lvl : Nat) (w : World) :
    countStdout (ensureStdout lvl w).handlers
      = if countStdout w.handlers = 0 then 1 else countStdout w.handlers := by
  have hmap := countStdout_map_level lvl w.handlers
  show countStdout
      (((if (w.handlers.map fun h =>
            if h.id = stdoutId then { h with level := lvl } else h).any
              (fun h => h.name = some stdoutName) then
          (w.handlers.map fun h =>
            if h.id = stdoutId then { h with level := lvl } else h)
        else
          (w.handlers.map fun h =>
            if h.id = stdoutId then { h with level := lvl } else h)
            ++ [streamHandlerAt lvl])).filter fun h =>
        ¬(isStreamInstance h.kind = true ∧ h.name ≠ some stdoutName)) = _
  rw [countStdout_filter_keep]
  by_cases hany : ((w.handlers.map fun h =>
      if h.id = stdoutId then { h with level := lvl } else h).any
        (fun h => h.name = some stdoutName)) = true
  · have hpos : countStdout (w.handlers.map fun h =>
        if h.id = stdoutId then { h with level := lvl } else h) ≠ 0 := by
      have hex := List.any_eq_true.mp hany
      have : 0 < countStdout (w.handlers.map fun h =>
          if h.id = stdoutId then { h with level := lvl } else h) := by
        unfold countStdout
        exact List.countP_pos_iff.mpr hex
      omega
    rw [hmap] at hpos
    simp [hany, hmap, hpos]
  · have hzero : countStdout (w.handlers.map fun h =>
        if h.id = stdoutId then { h with level := lvl } else h) = 0 := by
      have hfalse : ((w.handlers.map fun h =>
          if h.id = stdoutId then { h with level := lvl } else h).any
            (fun h => h.name = some stdoutName)) = false := by
        rcases hb : ((w.handlers.map fun h =>
            if h.id = stdoutId then { h with level := lvl } else h).any
              (fun h => h.name = some stdoutName)) with _ | _
        · exact hb
        · exact absurd hb hany
      unfold countStdout
      rw [List.countP_eq_zero]
      exact List.any_eq_false.mp hfalse
    rw [hmap] at hzero
    have hcount1 : countStdout [streamHandlerAt lvl] = 1 := by
      unfold countStdout streamHandlerAt
      simp
    unfold countStdout at hcount1 hzero hmap ⊢
    simp only [hany, if_false, List.countP_append]
    simp [hmap, hzero, hcount1]

theorem countStdout_basicLogging (lvl : Nat) (w : World) :
    countStdout (basicLogging lvl w).handlers
      = if countStdout w.handlers = 0 then 1 else countStdout w.handlers := by
  unfold basicLogging
  rw [handlers_ensureIndenting]
  have h := countStdout_ensureStdout lvl (setLevel lvl w)
  simpa [setLevel] using h

/-- A fresh baseline state: nothing attached yet, root logger at the
`logging` library's default level `WARNING = 30`. -/
def wInit : World :=
  { handlers := [], level := 30, hasIndentFilter := false, indentDepth := 0,
    useEmme := false, nextId := 1, log := [], fs := [], opened := [],
    closedIds := [],
    now := { year := 2024, month := 1, day := 2, hour := 3, minute := 4,
             second := 5 } }

/-! ## Claim C5 -/

/-- C5: calling the console-sink setup (`basic_logging`, which calls
`_ensure_stdout`) twice attaches exactly one console sink: starting from
any state holding at most one handler named `"StdOutHandler"`, after the
second call the named stdout handler appears exactly once in the shared
logger's handler list. -/
theorem basicLogging_twice_one_console (w : World) (lvl1 lvl2 : Nat)
    (h : countStdout w.handlers ≤ 1) :
    countStdout (basicLogging lvl2 (basicLogging lvl1 w)).handlers = 1 := by
  rw [countStdout_basicLogging, countStdout_basicLogging]
  by_cases hc : countStdout w.handlers = 0
  · simp [hc]
  · have h1 : countStdout w.handlers = 1 := by omega
    simp [h1]

/-- Witness for C5: from the fresh baseline (no handler at all), two
`basic_logging` calls leave exactly one console sink. -/
theorem basicLogging_twice_one_console_witness :
    countStdout wInit.handlers ≤ 1
      ∧ countStdout (basicLogging 10 (basicLogging 10 wInit)).handlers = 1 :=
  ⟨by decide, basicLogging_twice_one_console wInit 10 10 (by decide)⟩

/-! ## Claim C6 -/

/-- C6: running the console-sink setup (`basic_logging` / `_ensure_stdout`)
while file sinks are attached removes every attached file sink and does not
reattach them: a `FileHandler` is a `StreamHandler` whose name differs from
`"StdOutHandler"` (the module's file handlers are unnamed), so the
"remove other stream handlers" pass deletes them all — file-based logging
does not survive a console-sink setup call. -/
theorem basicLogging_removes_file_sinks (w : World) (lvl : Nat)
    (hn : ∀ h ∈ w.handlers, isFileInstance h.kind = true →
      h.name ≠ some stdoutName) :
    (basicLogging lvl w).handlers.filter (fun h => isFileInstance h.kind)
      = [] := by
  unfold basicLogging
  rw [handlers_ensureIndenting]
  apply List.filter_eq_nil_iff.mpr
  intro a ha
  intro hfile
  have hkind : a.kind = HKind.file := by
    rcases hk : a.kind with _ | _ | _
    · rw [hk] at hfile; simp [isFileInstance] at hfile
    · rfl
    · rw [hk] at hfile; simp [isFileInstance] at hfile
  unfold ensureStdout at ha
  simp only [] at ha
  rcases List.mem_filter.mp ha with ⟨hmem2, hkeep⟩
  have hname : a.name = some stdoutName := by
    by_contra hne
    have : isStreamInstance a.kind = true := by rw [hkind]; rfl
    simp [this, hne] at hkeep
  have hfrom : a ∈ (setLevel lvl w).handlers.map (fun h =>
      if h.id = stdoutId then { h with level := lvl } else h)
      ∨ a = streamHandlerAt lvl := by
    by_cases hany : (((setLevel lvl w).handlers.map fun h =>
        if h.id = stdoutId then { h with level := lvl } else h).any
          (fun h => h.name = some stdoutName)) = true
    · rw [if_pos hany] at hmem2
      exact Or.inl hmem2
    · rw [if_neg hany] at hmem2
      rcases List.mem_append.mp hmem2 with h1 | h1
      · exact Or.inl h1
      · exact Or.inr (by simpa using h1)
  rcases hfrom with h1 | h1
  · rcases List.mem_map.mp h1 with ⟨h0, hh0, hfa⟩
    have hmem0 : h0 ∈ w.handlers := by simpa [setLevel] using hh0
    have hk0 : h0.kind = HKind.file ∧ h0.name = some stdoutName := by
      by_cases hid : h0.id = stdoutId
      · rw [if_pos hid] at hfa
        constructor
        · have : a.kind = h0.kind := by rw [← hfa]
          rw [← this, hkind]
        · have : a.name = h0.name := by rw [← hfa]
          rw [← this, hname]
      · rw [if_neg hid] at hfa
        rw [hfa]
        exact ⟨hkind, hname⟩
    have : isFileInstance h0.kind = true := by rw [hk0.1]; rfl
    exact (hn h0 hmem0 this) hk0.2
  · rw [h1] at hkind
    simp [streamHandlerAt] at hkind

/-- Witness for C6: with one (unnamed) file sink attached, a
`basic_logging` call leaves no file sink attached. -/
theorem basicLogging_removes_file_sinks_witness :
    (∀ h ∈ ({ handlers := [{ id := 1, kind := HKind.file, name := none,
                              level := 10, filename := some "old.log" }],
              level := 30, hasIndentFilter := false, indentDepth := 0,
              useEmme := false, nextId := 2, log := [], fs := [],
              opened := [], closedIds := [],
              now := { year := 2024, month := 1, day := 2, hour := 3,
                       minute := 4, second := 5 } } : World).handlers,
        isFileInstance h.kind = true → h.name ≠ some stdoutName)
    ∧ (basicLogging 10
        { handlers := [{ id := 1, kind := HKind.file, name := none,
                         level := 10, filename := some "old.log" }],
          level := 30, hasIndentFilter := false, indentDepth := 0,
          useEmme := false, nextId := 2, log := [], fs := [],
          opened := [], closedIds := [],
          now := { year := 2024, month := 1, day := 2, hour := 3,
                   minute := 4, second := 5 } }).handlers.filter
        (fun h => isFileInstance h.kind) = [] :=
  ⟨by decide, basicLogging_removes_file_sinks _ 10 (by decide)⟩

/-- One `add_emme_logging_handler` call always attaches one more external
logbook sink: the freshly constructed `EmmeHandler` is a new object, so
`addHandler`'s already-attached guard never fires.  The id-freshness
invariant is preserved. -/
theorem countEmme_addEmme (lvl : Nat) (w : World)
    (hwf : ∀ h ∈ w.handlers, h.id < w.nextId) :
    countEmme (addEmmeLoggingHandler lvl w).handlers
        = countEmme w.handlers + 1
      ∧ ∀ h ∈ (addEmmeLoggingHandler lvl w).handlers,
          h.id < (addEmmeLoggingHandler lvl w).nextId := by
  have hnot : Handler.mk w.nextId HKind.emme none lvl none ∉ w.handlers := by
    intro hmem
    have := hwf _ hmem
    simp at this
  unfold addEmmeLoggingHandler addHandler
  simp only []
  split
  · next hmem => exact absurd hmem hnot
  · constructor
    · show countEmme (w.handlers ++ [Handler.mk w.nextId HKind.emme none lvl none])
          = countEmme w.handlers + 1
      unfold countEmme
      simp [List.countP_append]
    · intro h hmem
      have hmem2 : h ∈ w.handlers ++ [Handler.mk w.nextId HKind.emme none lvl none] := hmem
      show h.id < w.nextId + 1
      rcases List.mem_append.mp hmem2 with h1 | h1
      · exact Nat.lt_succ_of_lt (hwf h h1)
      · have : h = Handler.mk w.nextId HKind.emme none lvl none := by simpa using h1
        rw [this]
        exact Nat.lt_succ_self _

/-! ## Claim C4 -/

/-- Counterexample to C4 as stated: starting from a fresh state, calling
`add_emme_logging_handler` twice leaves *two* external logbook sinks
attached, not one — each call constructs a new `EmmeHandler` object and
`addHandler` has no name-based duplicate check. -/
theorem addEmme_twice_two_sinks_cex :
    countEmme (addEmmeLoggingHandler 10 (addEmmeLoggingHandler 10 wInit)).handlers = 2
      ∧ ¬ countEmme
          (addEmmeLoggingHandler 10 (addEmmeLoggingHandler 10 wInit)).handlers
            = 1 := by
  decide

/-- `addHandler`'s already-attached guard (`if h ∈ self.handlers`, by
object identity) makes attaching the same handler object a second time a
no-op. -/
theorem addHandler_idem (h : Handler) (w : World) :
    addHandler h (addHandler h w) = addHandler h w := by
  by_cases hmem : h ∈ w.handlers
  · simp [addHandler, hmem]
  · simp [addHandler, hmem]

/-- After attaching the same handler object twice, the logger holds exactly
one copy of it — starting from any state that does not already hold a
duplicate, which no reachable state does, the guard being what prevents
them. -/
theorem count_addHandler_twice (h : Handler) (w : World)
    (hc : List.count h w.handlers ≤ 1) :
    List.count h (addHandler h (addHandler h w)).handlers = 1 := by
  rw [addHandler_idem]
  unfold addHandler
  by_cases hmem : h ∈ w.handlers
  · rw [if_pos hmem]
    have h1 : 0 < List.count h w.handlers := List.count_pos_iff.mpr hmem
    omega
  · rw [if_neg hmem]
    show List.count h (w.handlers ++ [h]) = 1
    rw [List.count_append, List.count_eq_zero.mpr hmem]
    simp

/-- A pre-existing file sink attached before a Task Logging Session starts. -/
def oldFh : Handler :=
  { id := 1, kind := .file, name := none, level := 10,
    filename := some "old.log" }

/-- C4 (amended): attaching the same named sink twice is idempotent for the
console sink — after a second `_ensure_stdout` the logger holds exactly one
console sink — and for the file sink — attaching the same file handler
object a second time is a no-op under `addHandler`'s already-attached
guard, so the logger holds no duplicate of it — but not for the external
logbook sink: each `add_emme_logging_handler` call attaches a fresh
`EmmeHandler`, so calling it twice leaves two more external logbook sinks
attached than before. -/
theorem sink_attach_idempotence_amended (w : World) (lvlC lvlE : Nat)
    (fh : Handler)
    (hc : countStdout w.handlers ≤ 1)
    (hwf : ∀ h ∈ w.handlers, h.id < w.nextId)
    (hfile : isFileInstance fh.kind = true)
    (hcfh : List.count fh w.handlers ≤ 1) :
    countStdout (ensureStdout lvlC (ensureStdout lvlC w)).handlers = 1
      ∧ addHandler fh (addHandler fh w) = addHandler fh w
      ∧ List.count fh (addHandler fh (addHandler fh w)).handlers = 1
      ∧ countEmme
          (addEmmeLoggingHandler lvlE (addEmmeLoggingHandler lvlE w)).handlers
            = countEmme w.handlers + 2 := by
  refine ⟨?_, addHandler_idem fh w, count_addHandler_twice fh w hcfh, ?_⟩
  · rw [countStdout_ensureStdout, countStdout_ensureStdout]
    by_cases hz : countStdout w.handlers = 0
    · simp [hz]
    · have h1 : countStdout w.handlers = 1 := by omega
      simp [h1]
  · have h1 := countEmme_addEmme lvlE w hwf
    have h2 := countEmme_addEmme lvlE (addEmmeLoggingHandler lvlE w) h1.2
    rw [h2.1, h1.1]

/-- Witness for the amended C4 at the fresh baseline state, with the
session-style file sink `oldFh` as the file handler attached twice. -/
theorem sink_attach_idempotence_amended_witness :
    (countStdout wInit.handlers ≤ 1
        ∧ (∀ h ∈ wInit.handlers, h.id < wInit.nextId)
        ∧ isFileInstance oldFh.kind = true
        ∧ List.count oldFh wInit.handlers ≤ 1)
      ∧ countStdout (ensureStdout 10 (ensureStdout 10 wInit)).handlers = 1
      ∧ addHandler oldFh (addHandler oldFh wInit) = addHandler oldFh wInit
      ∧ List.count oldFh
          (addHandler oldFh (addHandler oldFh wInit)).handlers = 1
      ∧ countEmme
          (addEmmeLoggingHandler 10 (addEmmeLoggingHandler 10 wInit)).handlers
            = countEmme wInit.handlers + 2 :=
  ⟨⟨by decide, by decide, by decide, by decide⟩,
    sink_attach_idempotence_amended wInit 10 10 oldFh (by decide) (by decide)
      (by decide) (by decide)⟩

/-! ## Claim C7 -/

/-- C7: for a function `f` decorated with `function_logging(msg)` and any
call whose arguments `getcallargs` resolves (by parameter name, defaults
included) to `argsDict`, with the template interpolating to `m`: the
wrapped call logs `m`, runs `f`'s body inside the indent scope (depth one
higher), returns `f`'s result — or propagates its failure — unchanged, and
restores the caller's indent depth afterwards (given that `f`'s body itself
leaves the depth balanced, as every body built from this façade does). -/
theorem functionLogging_spec (msg : Template) (f : PyFun) (args : List PyVal)
    (kwargs : Ctx) (w : World) (argsDict : Ctx) (m : String)
    (hbind : getcallargs f.params f.defaults args kwargs = some argsDict)
    (hfmt : fmtTemplate msg argsDict = some m)
    (hdepth : ∀ w', ((f.body argsDict w').1).indentDepth = w'.indentDepth)
    (hlvl : w.level ≤ INFO) :
    functionLoggingCall msg f args kwargs w
        = (decreaseIndent (f.body argsDict (increaseIndent (logInfo m w))).1,
           (f.body argsDict (increaseIndent (logInfo m w))).2)
      ∧ (functionLoggingCall msg f args kwargs w).1.indentDepth = w.indentDepth
      ∧ m ∈ (logInfo m w).log := by
  have hmain : functionLoggingCall msg f args kwargs w
      = (decreaseIndent (f.body argsDict (increaseIndent (logInfo m w))).1,
         (f.body argsDict (increaseIndent (logInfo m w))).2) := by
    show (match getcallargs f.params f.defaults args kwargs with
      | none => (w, Outcome.exn Exn.typeError)
      | some argsDict => indentRun msg argsDict (f.body argsDict) w) = _
    rw [hbind]
    show indentRun msg argsDict (f.body argsDict) w = _
    unfold indentRun
    rw [hfmt]
  refine ⟨hmain, ?_, ?_⟩
  · rw [hmain]
    show (decreaseIndent
        (f.body argsDict (increaseIndent (logInfo m w))).1).indentDepth
      = w.indentDepth
    unfold decreaseIndent
    simp only []
    rw [hdepth]
    unfold increaseIndent
    simp only []
    rw [indentDepth_logInfo]
    omega
  · unfold logInfo
    rw [if_pos hlvl]
    simp

/-- A concrete decorated function for the C7 witness: one parameter `x`,
body returning `x + 1`. -/
def demoFun : PyFun :=
  { params := ["x"], defaults := [],
    body := fun bind w =>
      (w, match lookupStr bind "x" with
          | some (.vInt n) => .ok (.vInt (n + 1))
          | _ => .exn .userError) }

/-- A baseline state whose logger level admits `INFO` records. -/
def wRun : World := { wInit with level := 20 }

/-- Witness for C7: `demoFun` decorated with the template `"run \x7bx\x7d"`,
called as `f(x=5)`, logs `"run 5"`, returns `6`, and restores depth. -/
theorem functionLogging_spec_witness :
    functionLoggingCall [TmplPart.lit "run ", TmplPart.ph "x"] demoFun []
        [("x", PyVal.vInt 5)] wRun
        = (decreaseIndent
            (demoFun.body [("x", PyVal.vInt 5)]
              (increaseIndent (logInfo "run 5" wRun))).1,
           (demoFun.body [("x", PyVal.vInt 5)]
              (increaseIndent (logInfo "run 5" wRun))).2)
      ∧ (functionLoggingCall [TmplPart.lit "run ", TmplPart.ph "x"] demoFun []
          [("x", PyVal.vInt 5)] wRun).1.indentDepth = wRun.indentDepth
      ∧ "run 5" ∈ (logInfo "run 5" wRun).log :=
  functionLogging_spec [TmplPart.lit "run ", TmplPart.ph "x"] demoFun []
    [("x", PyVal.vInt 5)] wRun [("x", PyVal.vInt 5)] "run 5"
    (by decide) (by decide) (fun w' => rfl) (by decide)

/-! ## Claims C1 and C3 -/

/-- A state with one pre-existing file sink and the root logger at
`WARNING = 30`, as before a session begins. -/
def w0 : World := { wInit with handlers := [oldFh], nextId := 2 }

/-- C1 fails on the code: `logging_for_task` is a generator-based context
manager with no `try/finally` around its `yield`, so when the wrapped block
raises, every post-`yield` cleanup step is skipped.  At this concrete run
(body raises, one pre-existing file sink, logger previously at `WARNING`):
the failure does propagate, but the session's file sink is still attached
and never closed, the pre-existing file sink is not reattached — so the
file-sink set afterwards differs from the one before — the logger's level
stays at the session's level, and the file-open helper is never invoked. -/
theorem loggingForTask_cleanup_skipped_on_raise :
    (loggingForTask "/tmp/log" "build" none 20 .raiseExn w0).2
        = .exn .userError
      ∧ (loggingForTask "/tmp/log" "build" none 20 .raiseExn w0).1.handlers.filter
          (fun h => isFileInstance h.kind)
          ≠ w0.handlers.filter (fun h => isFileInstance h.kind)
      ∧ oldFh ∉ (loggingForTask "/tmp/log" "build" none 20 .raiseExn w0).1.handlers
      ∧ (loggingForTask "/tmp/log" "build" none 20 .raiseExn w0).1.closedIds = []
      ∧ (loggingForTask "/tmp/log" "build" none 20 .raiseExn w0).1.opened = []
      ∧ (loggingForTask "/tmp/log" "build" none 20 .raiseExn w0).1.level = 20
      ∧ w0.level = 30 := by
  decide

/-- C3 fails on the code: `previous_level` is read from `root_logger.level`
*after* `root_logger.setLevel(level)` has already run, so it records the
requested level, not the pre-session level.  On a normal exit of this
concrete session (requested level `INFO = 20`, pre-session level
`WARNING = 30`) the logger is left at `20`, not restored to `30` — even
though every other cleanup step (handler restoration, close, file-open)
does run. -/
theorem loggingForTask_level_not_restored :
    (loggingForTask "/tmp/log" "build" none 20 .skip w0).2 = .ok ()
      ∧ w0.level = 30
      ∧ (loggingForTask "/tmp/log" "build" none 20 .skip w0).1.level = 20
      ∧ (loggingForTask "/tmp/log" "build" none 20 .skip w0).1.handlers
          = [oldFh] := by
  decide

/-! ## Claim C10 -/

/-- The session log path written the way the spec words it:
`<output_folder>/<YYYY-MM-DD_HHMMSS>_<task_name>.log`, the timestamp taken
from the session's start time (second definition, for comparison with the
source-derived `getOutputFilename`). -/
def specSessionLogPath (folder task : String) (t : PyDateTime) : String :=
  folder ++ "/"
    ++ (pad4 t.year ++ "-" ++ pad2 t.month ++ "-" ++ pad2 t.day ++ "_"
        ++ pad2 t.hour ++ pad2 t.minute ++ pad2 t.second)
    ++ "_" ++ task ++ ".log"

/-- Every path is the last of its own component-wise stages. -/
theorem self_mem_pathStages (d : String) : d ∈ pathStages d := by
  unfold pathStages
  simp only []
  have hne : d.data.splitOn '/' ≠ [] := List.splitOnP_ne_nil _ d.data
  have hlen : 0 < (d.data.splitOn '/').length := List.length_pos.mpr hne
  apply List.mem_map.mpr
  refine ⟨(d.data.splitOn '/').length - 1, List.mem_range.mpr (by omega), ?_⟩
  rw [Nat.sub_add_cancel (by omega), List.take_length,
    List.intercalate_splitOn]

theorem getOutputFilename_fst (folder task : String) (w : World) :
    (getOutputFilename folder task w).1
      = { w with fs := mkdirP folder w.fs } := rfl

theorem getOutputFilename_fs (folder task : String) (w : World) :
    (getOutputFilename folder task w).1.fs = mkdirP folder w.fs := by
  rw [getOutputFilename_fst]

set_option maxHeartbeats 2000000 in
/-- C10: for every output folder (nonempty, no trailing separator), task
name and session start time, the Task Logging Session's log file path is
exactly `<output_folder>/<YYYY-MM-DD_HHMMSS>_<task_name>.log` with the
timestamp taken from the start time, and the output folder — every
component-wise stage of it — is brought into existence (created
recursively) while the pre-existing directories are kept. -/
theorem getOutputFilename_spec (folder task : String) (w : World)
    (h1 : folder ≠ "")
    (h2 : strEndsWith folder "/" = false)
    (h3 : strStartsWith (strftimeStamp w.now ++ "_" ++ task ++ ".log") "/"
      = false) :
    (getOutputFilename folder task w).2 = specSessionLogPath folder task w.now
      ∧ folder ∈ (getOutputFilename folder task w).1.fs
      ∧ (∀ d ∈ pathStages folder, d ∈ (getOutputFilename folder task w).1.fs)
      ∧ (∀ d ∈ w.fs, d ∈ (getOutputFilename folder task w).1.fs) := by
  refine ⟨?_, ?_, ?_, ?_⟩
  · show osPathJoin folder (strftimeStamp w.now ++ "_" ++ task ++ ".log")
      = specSessionLogPath folder task w.now
    unfold osPathJoin
    rw [h3]
    simp only [Bool.false_eq_true, if_false]
    rw [if_neg (by
      intro hor
      rcases hor with hfold | hfold
      · exact h1 hfold
      · rw [h2] at hfold
        exact Bool.false_ne_true hfold)]
    unfold specSessionLogPath strftimeStamp
    simp [String.append_assoc]
  · rw [getOutputFilename_fs]
    exact List.mem_append.mpr (Or.inl (self_mem_pathStages folder))
  · intro d hd
    rw [getOutputFilename_fs]
    exact List.mem_append.mpr (Or.inl hd)
  · intro d hd
    rw [getOutputFilename_fs]
    exact List.mem_append.mpr (Or.inr hd)

/-- Witness for C10, the spec's own scenario: a session for task `build`
in `/tmp/log` started at 2024-01-02 03:04:05 logs to
`/tmp/log/2024-01-02_030405_build.log`, and `/tmp/log` (with its parent
stages) is created. -/
theorem getOutputFilename_spec_witness :
    (getOutputFilename "/tmp/log" "build" w0).2
        = specSessionLogPath "/tmp/log" "build" w0.now
      ∧ "/tmp/log" ∈ (getOutputFilename "/tmp/log" "build" w0).1.fs
      ∧ (∀ d ∈ pathStages "/tmp/log",
          d ∈ (getOutputFilename "/tmp/log" "build" w0).1.fs)
      ∧ (∀ d ∈ w0.fs, d ∈ (getOutputFilename "/tmp/log" "build" w0).1.fs) :=
  getOutputFilename_spec "/tmp/log" "build" w0 (by decide) (by decide)
    (by decide)
